import Mathlib

/-!
Shallow embedding of the SalesAIAssistantProfileBuilder crawler/generator
pipeline (src/scraper.py and src/generator.py), together with proofs of the
behavioural claims about it.

Python strings are modelled as Lean `String` (list of unicode chars);
Python string slicing `s[:n]` with a non-negative bound is `List.take` on
`String.data`.  The browser and the LLM are external collaborators and are
modelled as explicit environment parameters.
-/

/-- The whitespace characters recognised by the Python method `str.strip()` and by the
regex class `\s` (ASCII range; exotic unicode whitespace is outside the inputs
this development evaluates). -/
def isPySpace (c : Char) : Bool :=
  c == ' ' || c == '\t' || c == '\n' || c == '\r' || c == '\x0b' || c == '\x0c'

/-- Python `str.strip()` on a list of characters: drop leading and trailing
whitespace. -/
def pyStripList (l : List Char) : List Char :=
  ((l.dropWhile isPySpace).reverse.dropWhile isPySpace).reverse

/-- Python `str.strip()`. -/
def pyStrip (s : String) : String := ⟨pyStripList s.data⟩

/-- Python slicing `s[:n]` for a non-negative bound, on strings. -/
def pyTake (n : Nat) (s : String) : String := ⟨s.data.take n⟩

/-- Python substring test `sub in s` (`sub` occurs contiguously in `s`). -/
def pyIn (sub : List Char) : List Char → Bool
  | [] => sub.isPrefixOf ([] : List Char)
  | c :: r => sub.isPrefixOf (c :: r) || pyIn sub r

/-- Python list slicing `l[:n]` for an `Int` bound: a negative bound counts
from the end of the list (`l[:-k]` keeps all but the last `k` elements). -/
def pySliceUpto (n : Int) (l : List α) : List α :=
  if 0 ≤ n then l.take n.toNat else l.take (l.length - (-n).toNat)

/-- Characters allowed after the first character of a URL scheme
(`urllib.parse` accepts letters, digits, `+`, `-`, `.`). -/
def validSchemeChar (c : Char) : Bool :=
  c.isAlphanum || c == '+' || c == '-' || c == '.'

/-- A non-empty candidate scheme: a letter followed by scheme characters,
as `urllib.parse.urlsplit` requires before it strips `scheme:`. -/
def validScheme : List Char → Bool
  | [] => false
  | c :: r => c.isAlpha && r.all validSchemeChar

/-- Model of `urllib.parse.urlparse(url).netloc`: strip a valid `scheme:` prefix if
present; if the remainder starts with `//`, the netloc is everything up to the
next `/`, `?` or `#`; otherwise it is empty.  (The control-character
sanitisation recent urllib versions perform is omitted; all URLs evaluated
here are plain ASCII without control characters.) -/
def urlparseNetloc (url : String) : String :=
  let cs := url.data
  let pre := cs.takeWhile (· ≠ ':')
  let rest := if pre.length < cs.length ∧ validScheme pre = true then
      cs.drop (pre.length + 1)
    else cs
  match rest with
  | '/' :: '/' :: r => ⟨r.takeWhile (fun c => c ≠ '/' && c ≠ '?' && c ≠ '#')⟩
  | _ => ""

/-! ## Scraper data model (src/scraper.py)

Page records are Python dicts with a varying key set; a missing key is
modelled as `none` in an `Option` field. -/

/-- An entry of the `clickables` list of a page (buttons carry no `href` key). -/
structure ClickableElement where
  ctype : String
  text : String
  href : Option String
deriving DecidableEq, Inhabited, Repr

/-- An entry of the `nav_items` list of a page (`isTab` is only present on
tab-like entries). -/
structure NavItem where
  text : String
  href : Option String
  isTab : Option Bool
deriving DecidableEq, Inhabited, Repr

/-- A page record as appended to `pages_data`.  Records built by
`_scrape_page` carry `clickables`/`nav_items` and no `is_tab`/`tab_name`;
records built by `_click_tabs` carry `is_tab`/`tab_name` and no
`clickables`/`nav_items`. -/
structure PageRecord where
  url : String
  title : String
  text : String
  clickables : Option (List ClickableElement)
  nav_items : Option (List NavItem)
  is_tab : Option Bool
  tab_name : Option String
deriving DecidableEq, Inhabited, Repr

/-- The raw extraction results the browser yields for a successfully loaded
page, before the truncations the scraper applies. -/
structure LoadedPage where
  title : String
  text : String
  clickables : List ClickableElement
  nav_items : List NavItem
deriving DecidableEq, Inhabited, Repr

/-- One candidate tab element in the tab sweep.  `fail` is any exception
raised while handling that tab (inner text, click or extraction failure);
`ok` carries the tab label, the page URL observed after the click, and the
freshly extracted text and title. -/
inductive TabStep where
  | fail : TabStep
  | ok (tab_text current_url text title : String) : TabStep
deriving DecidableEq, Inhabited, Repr

/-- The external browser: which URLs load (and what they contain), and the
outcome of the tab sweep.  `tabs = none` models the start-page reload or the
tab query itself raising, which skips the whole sweep. -/
structure CrawlEnv where
  load : String → Option LoadedPage
  tabs : Option (List TabStep)

/-- The mutable state of a `WebsiteScraper` instance.  `visited_urls` is a
Python set; since the only insertion is guarded by a membership test, it is
modelled as a duplicate-free cons list whose length is the set size. -/
structure ScraperState where
  start_url : String
  max_pages : Nat
  base_domain : String
  visited_urls : List String
  pages_data : List PageRecord
deriving DecidableEq, Inhabited, Repr

/-- Model of `WebsiteScraper.__init__`. -/
def initState (start_url : String) (max_pages : Nat) : ScraperState :=
  { start_url := start_url
    max_pages := max_pages
    base_domain := urlparseNetloc start_url
    visited_urls := []
    pages_data := [] }

/-- The page record `_scrape_page` appends for url `url` loaded as `lp`:
text truncated to 15000 characters, clickables to 50 entries, nav items
to 20 entries. -/
def mkPageData (url : String) (lp : LoadedPage) : PageRecord :=
  { url := url
    title := lp.title
    text := pyTake 15000 lp.text
    clickables := some (lp.clickables.take 50)
    nav_items := some (lp.nav_items.take 20)
    is_tab := none
    tab_name := none }

/-- Model of `WebsiteScraper._scrape_page`: refuse visited URLs, an exhausted budget
and foreign domains; otherwise mark visited, then either fail the load
(exception: `None`, page skipped) or append the truncated page record. -/
def scrapePage (load : String → Option LoadedPage) (st : ScraperState)
    (url : String) : ScraperState × Option PageRecord :=
  if url ∈ st.visited_urls then (st, none)
  else if st.max_pages ≤ st.visited_urls.length then (st, none)
  else if urlparseNetloc url ≠ st.base_domain then (st, none)
  else
    let st1 := { st with visited_urls := url :: st.visited_urls }
    match load url with
    | none => (st1, none)
    | some lp => ({ st1 with pages_data := st1.pages_data ++ [mkPageData url lp] },
                  some (mkPageData url lp))

/-- Deduplication of the `nav_urls` Python set, modelled as keeping the first
occurrence of each URL.  (Python set iteration order is unspecified; no
theorem below depends on the order chosen here.) -/
def dedupKeepFirstAux (seen : List String) : List String → List String
  | [] => []
  | u :: r => if u ∈ seen then dedupKeepFirstAux seen r
              else u :: dedupKeepFirstAux (u :: seen) r

/-- Entry point of the deduplication above. -/
def dedupKeepFirst (l : List String) : List String := dedupKeepFirstAux [] l

/-- The same-domain href filter `_discover_pages` applies to both nav items
and clickable links: the href must be present, truthy (non-empty) and on the
base domain. -/
def hrefCandidate (base : String) (href : Option String) : Option String :=
  match href with
  | some h => if h ≠ "" ∧ urlparseNetloc h = base then some h else none
  | none => none

/-- The deduplicated candidate URL set `_discover_pages` harvests from the
a first page record, through its `nav_items` and `clickables`. -/
def candidateUrls (st : ScraperState) : List String :=
  match st.pages_data with
  | [] => []
  | first :: _ =>
    let navs := (first.nav_items.getD []).filterMap
      (fun item => hrefCandidate st.base_domain item.href)
    let links := (first.clickables.getD []).filterMap
      (fun c => if c.ctype = "link" then hrefCandidate st.base_domain c.href else none)
    dedupKeepFirst (navs ++ links)

/-- The slice `list(nav_urls)[:self.max_pages - 1]` of candidates the Expand
phase iterates over (Python subtraction, so a negative bound slices from the
end). -/
def expandCandidates (st : ScraperState) : List String :=
  pySliceUpto ((st.max_pages : Int) - 1) (candidateUrls st)

/-- The tab record `_click_tabs` builds for a clicked tab. -/
def mkTabData (tab_text current_url text title : String) : PageRecord :=
  { url := current_url
    title := title ++ " - " ++ pyStrip tab_text
    text := pyTake 15000 text
    clickables := none
    nav_items := none
    is_tab := some true
    tab_name := some (pyStrip tab_text) }

/-- One iteration of the `_click_tabs` loop.  A blank label skips the tab;
the record is appended unless the text of some existing record agrees with
the fresh text on the first 500 characters.  (The code line
`current_url not in self.visited_urls or True` guard is identically true and
is therefore not modelled as a branch.) -/
def tabStep (st : ScraperState) : TabStep → ScraperState
  | .fail => st
  | .ok tab_text current_url text title =>
    if pyStrip tab_text = "" then st
    else if st.pages_data.any (fun p => pyTake 500 p.text == pyTake 500 text) then st
    else { st with
           pages_data := st.pages_data ++ [mkTabData tab_text current_url text title] }

/-- Model of `WebsiteScraper._click_tabs`: reload the start page (failure skips the
whole phase) and process the first 5 tab elements. -/
def clickTabs (tabs : Option (List TabStep)) (st : ScraperState) : ScraperState :=
  match tabs with
  | none => st
  | some ts => (ts.take 5).foldl tabStep st

/-- Model of `WebsiteScraper._discover_pages`: bail out if nothing was scraped,
otherwise scrape each sliced candidate that is not yet visited, then run the
tab sweep. -/
def discoverPages (env : CrawlEnv) (st : ScraperState) : ScraperState :=
  if st.pages_data.isEmpty then st
  else
    let st2 := (expandCandidates st).foldl
      (fun s url => if url ∈ s.visited_urls then s else (scrapePage env.load s url).1) st
    clickTabs env.tabs st2

/-- The scraper state after a completed crawl: scrape the start URL, then
discover further pages and sweep tabs. -/
def crawlState (env : CrawlEnv) (start_url : String) (max_pages : Nat) : ScraperState :=
  discoverPages env (scrapePage env.load (initState start_url max_pages) start_url).1

/-- The dictionary `WebsiteScraper.scrape` returns. -/
structure CrawlResult where
  home_url : String
  pages : List PageRecord
deriving DecidableEq, Inhabited, Repr

/-- Model of `WebsiteScraper.scrape` and `scrape_website`. -/
def crawl (env : CrawlEnv) (start_url : String) (max_pages : Nat) : CrawlResult :=
  { home_url := start_url
    pages := (crawlState env start_url max_pages).pages_data }

/-! ## Generator (src/generator.py) -/

/-- The literal split marker `---SPLIT---`. -/
def MARKER : String := "---SPLIT---"

/-- Python `str.split(sep)` for a non-empty separator, with an accumulator
for the current piece and a skip counter that walks over the characters of a
separator occurrence just recognised. -/
def pySplitAux (sep : List Char) : Nat → List Char → List Char → List (List Char)
  | _, acc, [] => [acc.reverse]
  | skip+1, acc, _ :: r => pySplitAux sep skip acc r
  | 0, acc, c :: r =>
    if sep.isPrefixOf (c :: r) then
      acc.reverse :: pySplitAux sep (sep.length - 1) [] r
    else pySplitAux sep 0 (c :: acc) r

/-- Python `s.split(sep)`. -/
def pySplit (sep s : String) : List String :=
  (pySplitAux sep.data 0 [] s.data).map (fun l => ⟨l⟩)

/-- The three-backtick fence opener, written via character codes. -/
def tripleTick : List Char := ['\x60', '\x60', '\x60']

/-- Leftmost-position match attempt for the first `_clean_yaml` substitution,
the multiline regex pattern: three backticks, `y`, optional `a`, `m`,
optional `l`, then a greedy run of whitespace (an optional trailing newline
is subsumed by the greedy run).  Returns the length of the match. -/
def tryMatch1 (l : List Char) : Option Nat :=
  match l with
  | '\x60' :: '\x60' :: '\x60' :: 'y' :: r =>
    let (na, r1) := match r with
      | 'a' :: r2 => (1, r2)
      | _ => (0, r)
    match r1 with
    | 'm' :: r2 =>
      let (nl, r3) := match r2 with
        | 'l' :: r4 => (1, r4)
        | _ => (0, r2)
      some (4 + na + 1 + nl + (r3.takeWhile isPySpace).length)
    | _ => none
  | _ => none

/-- Match attempt for the second `_clean_yaml` substitution, the multiline
regex pattern: three backticks then greedy whitespace up to an end-of-line
position.  The greedy whitespace backtracks to the last position that sits at
the end of the string or immediately before a newline; the newline itself is
a zero-width boundary and is not consumed. -/
def tryMatch2 (l : List Char) : Option Nat :=
  match l with
  | '\x60' :: '\x60' :: '\x60' :: r =>
    let ws := r.takeWhile isPySpace
    let rest0 := r.dropWhile isPySpace
    if rest0.isEmpty then some (3 + ws.length)
    else if ws.contains '\n' then
      some (3 + (ws.length - 1 - ws.reverse.findIdx (· == '\n')))
    else none
  | _ => none

/-- Model of `re.sub(pattern, '', content, flags=re.MULTILINE)` for a pattern anchored
at `^` whose matches are non-empty: scan the characters, try the matcher at
every line start, and skip the matched characters.  `tm` yields the match
length; the skip counter consumes it one character at a time so that the
line-start flag for the next anchor position is tracked exactly. -/
def subGoAux (tm : List Char → Option Nat) : Nat → Bool → List Char → List Char
  | _, _, [] => []
  | skip+1, _, c :: r => subGoAux tm skip (c == '\n') r
  | 0, atLS, c :: r =>
    match (if atLS then tm (c :: r) else none) with
    | some k => subGoAux tm (k - 1) (c == '\n') r
    | none => c :: subGoAux tm 0 (c == '\n') r

/-- One multiline `re.sub(..., '', content)` pass over a string. -/
def pySub (tm : List Char → Option Nat) (s : String) : String :=
  ⟨subGoAux tm 0 true s.data⟩

/-- Model of `YAMLGenerator._clean_yaml`: remove ` ```yaml `-style fence openers, then
bare ` ``` ` fence lines, then strip surrounding whitespace. -/
def clean_yaml (content : String) : String :=
  pyStrip (pySub tryMatch2 (pySub tryMatch1 content))

/-- Literal-prefix step for the preamble regex. -/
def matchLit (lit l : List Char) : Option (List Char) :=
  if lit.isPrefixOf l then some (l.drop lit.length) else none

/-- Matcher for `\s*` followed by the continuation `k`: true iff some (possibly empty)
prefix of whitespace can be dropped so that `k` accepts the remainder. -/
def spacesStar (k : List Char → Bool) : List Char → Bool
  | [] => k []
  | c :: r => k (c :: r) || (isPySpace c && spacesStar k r)

/-- The part of the preamble pattern after its literal newline:
`meta:` `\s*` `\n` `\s+` `company_id:`. -/
def preambleAfterNl (l : List Char) : Bool :=
  match matchLit "meta:".data l with
  | some r1 => spacesStar (fun r2 =>
      match r2 with
      | '\n' :: r3 =>
        match r3 with
        | c :: r4 => isPySpace c && spacesStar (fun r5 => "company_id:".data.isPrefixOf r5) r4
        | [] => false
      | _ => false) r1
  | none => false

/-- Whether the playbook-preamble regex `\n(meta:\s*\n\s+company_id:)`
matches at the head of `l`. -/
def preambleAt (l : List Char) : Bool :=
  match l with
  | '\n' :: r => preambleAfterNl r
  | _ => false

/-- Model of `re.search` for the preamble pattern: index of the leftmost match start,
if any. -/
def findPreamble : List Char → Option Nat
  | [] => none
  | c :: r => if preambleAt (c :: r) then some 0 else (findPreamble r).map (· + 1)

/-- The normalised company identifier: lowercase, with spaces, hyphens and
underscores removed. -/
def company_id (company_name : String) : String :=
  ⟨(((company_name.data.map Char.toLower).filter (· ≠ ' ')).filter (· ≠ '-')).filter (· ≠ '_')⟩

/-- Body of `YAMLGenerator._generate_fallback_playbook` minus the trailing newline of
the template literal. -/
def fallback_body (company_name home_url : String) : String :=
  "meta:\n  company_id: \"persona_" ++ company_id company_name
  ++ "\"\n  name: \"Full " ++ company_name
  ++ " Demo\"\n  description: \"Walk through the core features\"\n  estimated_duration: \"2-3 minutes\"\n  start_url: \""
  ++ home_url
  ++ "\"\n\ntriggers:\n  - \"give me a demo\"\n  - \"show me everything\"\n  - \"full tour\"\n\nsteps:\n  - id: \"intro\"\n    screen: \"dashboard\"\n    narrate_intent: \"welcome the user and introduce the product\"\n\n  - id: \"closing\"\n    narrate_intent: \"wrap up and ask if they have questions\"\n\nfallback_narration:\n  action_failed: \"Hmm, that didn\x27t work. Let me try another way.\"\n  element_not_found: \"I\x27m having trouble finding that. Let me describe it instead.\"\n  demo_interrupted: \"Got it — I\x27ll pause here. What would you like to know?\""

/-- Model of `YAMLGenerator._generate_fallback_playbook`: the static minimal playbook
template with the company id, company name and home URL substituted (the
triple-quoted source literal ends in a newline). -/
def fallback_playbook (company_name home_url : String) : String :=
  fallback_body company_name home_url ++ "\n"

/-- Model of `YAMLGenerator._parse_response`: split on the literal marker if present,
else at the leftmost preamble-pattern match, else fall back to the static
playbook; in every branch both halves are stripped and fence-cleaned. -/
def parse_response (content company_name home_url : String) : String × String :=
  if pyIn MARKER.data content.data then
    let parts := pySplit MARKER content
    let persona := pyStrip (parts.headD "")
    let playbook := if 1 < parts.length then pyStrip (parts.getD 1 "") else ""
    (clean_yaml persona, clean_yaml playbook)
  else
    match findPreamble content.data with
    | some i =>
      (clean_yaml (pyStrip ⟨content.data.take i⟩), clean_yaml (pyStrip ⟨content.data.drop i⟩))
    | none =>
      (clean_yaml (pyStrip content), clean_yaml (fallback_playbook company_name home_url))

/-! ## Specification-side definitions

These follow the words of the spec (not the source) and are used to state the
claims, to be compared against the source-derived functions above. -/

/-- The segment of `l` before the first contiguous occurrence of `sep`
(all of `l` if there is none). -/
def beforeFirstOcc (sep : List Char) : List Char → List Char
  | [] => []
  | c :: r => if sep.isPrefixOf (c :: r) then [] else c :: beforeFirstOcc sep r

/-- The remainder of `l` after the first contiguous occurrence of `sep`
(empty if there is none). -/
def afterFirstOcc (sep : List Char) : List Char → List Char
  | [] => []
  | c :: r => if sep.isPrefixOf (c :: r) then (c :: r).drop sep.length else afterFirstOcc sep r

/-- Modelled from the spec: the "registered domain" of a host, approximated
as its last two dot-separated labels (public-suffix rules beyond a single
top-level label are out of scope). -/
def registeredDomain (host : String) : String :=
  let labels := pySplit "." host
  if labels.length ≤ 2 then host
  else String.intercalate "." (labels.drop (labels.length - 2))

/-- Reading of the phrase "text free of code-fence lines" in the spec: no line of the text begins
with three backticks (so neither `_clean_yaml` substitution can match). -/
def fenceLineFree : Bool → List Char → Bool
  | _, [] => true
  | atLS, c :: r => (!atLS || !(tripleTick.isPrefixOf (c :: r))) && fenceLineFree (c == '\n') r

/-! ## Concrete example states and environments used by witnesses and
counterexamples -/

/-- The invariant used for the crawl-level budget bound: the visited-set size
is within the budget and the budget field is untouched. -/
def BudgetInv (mp : Nat) (s : ScraperState) : Prop :=
  s.visited_urls.length ≤ s.max_pages ∧ s.max_pages = mp

/-- A loaded page with given text and nav links, used in concrete runs. -/
def mkLoaded (title text : String) (navs : List (String × String)) : LoadedPage :=
  { title := title
    text := text
    clickables := []
    nav_items := navs.map (fun p => { text := p.1, href := some p.2, isTab := none }) }

/-- Concrete browser for the Expand-phase scenario: the start page links to
three same-domain pages, all of which load. -/
def envExpand : CrawlEnv :=
  { load := fun u =>
      if u = "https://a.com/" then
        some (mkLoaded "Home" "welcome"
          [("P1", "https://a.com/1"), ("P2", "https://a.com/2"), ("P3", "https://a.com/3")])
      else if u = "https://a.com/1" then some (mkLoaded "One" "one" [])
      else if u = "https://a.com/2" then some (mkLoaded "Two" "two" [])
      else if u = "https://a.com/3" then some (mkLoaded "Three" "three" [])
      else none
    tabs := some [] }

/-- Concrete browser where clicking a tab lands on a foreign-domain URL. -/
def envForeignTab : CrawlEnv :=
  { load := fun u => if u = "https://a.com" then some (mkLoaded "Home" "hello" []) else none
    tabs := some [.ok "Pricing" "https://evil.com/x" "totally different text" "Evil"] }

/-- Concrete browser whose tab sweep captures two distinct tab variants. -/
def envTwoTabs : CrawlEnv :=
  { load := fun u => if u = "https://a.com" then some (mkLoaded "Home" "hello" []) else none
    tabs := some [.ok "T1" "https://a.com" "first tab text" "Home",
                  .ok "T2" "https://a.com" "second tab text" "Home"] }

/-- A one-page scraper state used to exercise the tab-dedup gate. -/
def stOnePage : ScraperState :=
  { start_url := "https://a.com"
    max_pages := 3
    base_domain := "a.com"
    visited_urls := ["https://a.com"]
    pages_data := [{ url := "https://a.com"
                     title := "Home"
                     text := "same text"
                     clickables := some []
                     nav_items := some []
                     is_tab := none
                     tab_name := none }] }

/-- The same-domain invariant for non-tab records: the base domain is `D` and
every record appended by `_scrape_page` has a url on domain `D`. -/
def DomInv (D : String) (s : ScraperState) : Prop :=
  s.base_domain = D ∧
  ∀ p ∈ s.pages_data, p.is_tab = none → urlparseNetloc p.url = D

/-- The field-shape contract each record in `pages_data` actually satisfies:
non-tab records carry `clickables` and `nav_items` (and no `tab_name`), tab
records carry `is_tab = true` and `tab_name` but no `clickables`/`nav_items`. -/
def recordShapeOK (p : PageRecord) : Prop :=
  (p.is_tab = none → p.clickables.isSome ∧ p.nav_items.isSome ∧ p.tab_name = none) ∧
  (p.is_tab ≠ none →
    p.is_tab = some true ∧ p.clickables = none ∧ p.nav_items = none ∧ p.tab_name.isSome)

/-- The invariant bounding the pages list during the scraping phases: one
record at most per visited URL, within the budget. -/
def PagesInv (mp : Nat) (s : ScraperState) : Prop :=
  s.pages_data.length ≤ s.visited_urls.length ∧ BudgetInv mp s

/-! ## Helper lemmas about the state transitions of the scraper -/

theorem scrapePage_cases (load : String → Option LoadedPage) (st : ScraperState) (u : String) :
    ((scrapePage load st u).1.visited_urls = st.visited_urls ∧
     (scrapePage load st u).1.pages_data = st.pages_data) ∨
    (u ∉ st.visited_urls ∧ st.visited_urls.length < st.max_pages ∧
     urlparseNetloc u = st.base_domain ∧
     (scrapePage load st u).1.visited_urls = u :: st.visited_urls ∧
     ((scrapePage load st u).1.pages_data = st.pages_data ∨
      ∃ lp, load u = some lp ∧
        (scrapePage load st u).1.pages_data = st.pages_data ++ [mkPageData u lp])) := by
  by_cases h1 : u ∈ st.visited_urls
  · left; simp [scrapePage, h1]
  by_cases h2 : st.max_pages ≤ st.visited_urls.length
  · left; simp [scrapePage, h1, h2]
  by_cases h3 : urlparseNetloc u = st.base_domain
  · right
    refine ⟨h1, by omega, h3, ?_, ?_⟩
    · cases hl : load u <;> simp [scrapePage, h1, h2, h3, hl]
    · cases hl : load u
      · left; simp [scrapePage, h1, h2, h3, hl]
      · right; exact ⟨_, rfl, by simp [scrapePage, h1, h2, h3, hl]⟩
  · left; simp [scrapePage, h1, h2, h3]

theorem scrapePage_consts (load : String → Option LoadedPage) (st : ScraperState) (u : String) :
    (scrapePage load st u).1.max_pages = st.max_pages ∧
    (scrapePage load st u).1.base_domain = st.base_domain ∧
    (scrapePage load st u).1.start_url = st.start_url := by
  unfold scrapePage
  (repeat' split) <;> exact ⟨rfl, rfl, rfl⟩

theorem tabStep_visited (st : ScraperState) (t : TabStep) :
    (tabStep st t).visited_urls = st.visited_urls := by
  cases t with
  | fail => rfl
  | ok a b c d => simp only [tabStep]; (repeat' split) <;> rfl

theorem tabStep_consts (st : ScraperState) (t : TabStep) :
    (tabStep st t).max_pages = st.max_pages ∧
    (tabStep st t).base_domain = st.base_domain ∧
    (tabStep st t).start_url = st.start_url := by
  cases t with
  | fail => exact ⟨rfl, rfl, rfl⟩
  | ok a b c d => simp only [tabStep]; (repeat' split) <;> exact ⟨rfl, rfl, rfl⟩

theorem tabStep_pages (st : ScraperState) (t : TabStep) :
    (tabStep st t).pages_data = st.pages_data ∨
    ∃ a b c d, pyStrip a ≠ "" ∧
      (tabStep st t).pages_data = st.pages_data ++ [mkTabData a b c d] := by
  cases t with
  | fail => left; rfl
  | ok a b c d =>
    by_cases hs : pyStrip a = ""
    · left; simp [tabStep, hs]
    by_cases hd : st.pages_data.any (fun p => pyTake 500 p.text == pyTake 500 c)
    · left; simp [tabStep, hs, hd]
    · right; exact ⟨a, b, c, d, hs, by simp [tabStep, hs, hd]⟩

theorem foldl_tabStep_visited : ∀ (ts : List TabStep) (s : ScraperState),
    (ts.foldl tabStep s).visited_urls = s.visited_urls := by
  intro ts
  induction ts with
  | nil => intro s; rfl
  | cons t r ih => intro s; rw [List.foldl_cons, ih, tabStep_visited]

theorem clickTabs_visited (tabs : Option (List TabStep)) (s : ScraperState) :
    (clickTabs tabs s).visited_urls = s.visited_urls := by
  cases tabs with
  | none => rfl
  | some ts => exact foldl_tabStep_visited _ _

theorem foldl_inv {σ α : Type _} (P : σ → Prop) (f : σ → α → σ)
    (h : ∀ s a, P s → P (f s a)) : ∀ (l : List α) (s : σ), P s → P (l.foldl f s) := by
  intro l
  induction l with
  | nil => intro s hs; exact hs
  | cons a r ih => intro s hs; exact ih _ (h s a hs)

theorem scrapePage_budgetInv (load : String → Option LoadedPage) (mp : Nat)
    (st : ScraperState) (u : String) (h : BudgetInv mp st) :
    BudgetInv mp (scrapePage load st u).1 := by
  obtain ⟨hlen, hmp⟩ := h
  have hc := (scrapePage_consts load st u).1
  rcases scrapePage_cases load st u with ⟨hv, _⟩ | ⟨_, hlt, _, hv, _⟩
  · exact ⟨by rw [hv, hc]; exact hlen, by rw [hc, hmp]⟩
  · exact ⟨by rw [hv, hc]; simp only [List.length_cons]; omega, by rw [hc, hmp]⟩

theorem crawlState_budgetInv (env : CrawlEnv) (start_url : String) (mp : Nat) :
    BudgetInv mp (crawlState env start_url mp) := by
  have h0 : BudgetInv mp (initState start_url mp) := ⟨by simp [initState], rfl⟩
  have h1 := scrapePage_budgetInv env.load mp _ start_url h0
  unfold crawlState discoverPages
  split
  · exact h1
  · have h2 := foldl_inv (BudgetInv mp)
      (fun s url => if url ∈ s.visited_urls then s else (scrapePage env.load s url).1)
      (fun s url hs => by
        show BudgetInv mp (if url ∈ s.visited_urls then s else (scrapePage env.load s url).1)
        by_cases hm : url ∈ s.visited_urls
        · rw [if_pos hm]; exact hs
        · rw [if_neg hm]; exact scrapePage_budgetInv env.load mp s url hs)
      (expandCandidates (scrapePage env.load (initState start_url mp) start_url).1) _ h1
    cases htabs : env.tabs with
    | none => exact h2
    | some ts =>
      have h3 := foldl_inv (BudgetInv mp) tabStep
        (fun s t hs => ⟨by rw [tabStep_visited]; exact (tabStep_consts s t).1 ▸ hs.1,
                        (tabStep_consts s t).1 ▸ hs.2⟩) (ts.take 5) _ h2
      exact h3

/-- C1: the visited-set only grows across any `_scrape_page` call, each call
keeps its size within the configured page budget, and after a completed
crawl the visited-set size is at most `max_pages` for every start URL. -/
theorem visited_set_bounded :
    (∀ (load : String → Option LoadedPage) (st : ScraperState) (url : String),
      st.visited_urls ⊆ ((scrapePage load st url).1).visited_urls) ∧
    (∀ (load : String → Option LoadedPage) (st : ScraperState) (url : String),
      st.visited_urls.length ≤ st.max_pages →
      ((scrapePage load st url).1).visited_urls.length ≤ st.max_pages) ∧
    (∀ (env : CrawlEnv) (start_url : String) (max_pages : Nat),
      (crawlState env start_url max_pages).visited_urls.length ≤ max_pages) := by
  refine ⟨?_, ?_, ?_⟩
  · intro load st url
    rcases scrapePage_cases load st url with ⟨hv, _⟩ | ⟨_, _, _, hv, _⟩ <;> rw [hv]
    · exact fun a ha => ha
    · exact fun a ha => List.mem_cons_of_mem _ ha
  · intro load st url h
    rcases scrapePage_cases load st url with ⟨hv, _⟩ | ⟨_, hlt, _, hv, _⟩ <;> rw [hv]
    · exact h
    · simp; omega
  · intro env start_url mp
    have h := crawlState_budgetInv env start_url mp
    exact le_of_le_of_eq h.1 h.2

theorem visited_set_bounded_witness :
    ((scrapePage (fun _ => none) (initState "https://a.com" 2) "https://a.com").1).visited_urls.length
      ≤ (initState "https://a.com" 2).max_pages :=
  visited_set_bounded.2.1 (fun _ => none) (initState "https://a.com" 2) "https://a.com" (by decide)

/-- C4 (amended): a scrape attempt is refused — `None` is returned with the
state untouched, so nothing is appended — exactly when the url was already
visited, the page budget is exhausted, or the network location of the url
differs from that of the start URL; the comparison is exact netloc string
equality (neither a prefix match nor registered-domain equality). -/
theorem scrape_refusal_iff (load : String → Option LoadedPage) (st : ScraperState)
    (url : String) :
    ((scrapePage load st url).1 = st ∧ (scrapePage load st url).2 = none) ↔
      (url ∈ st.visited_urls ∨ st.max_pages ≤ st.visited_urls.length ∨
        urlparseNetloc url ≠ st.base_domain) := by
  constructor
  · rintro ⟨h1, h2⟩
    by_contra hc
    push_neg at hc
    obtain ⟨hv, hb, hd⟩ := hc
    cases hl : load url with
    | none =>
      have hvis : (scrapePage load st url).1.visited_urls = url :: st.visited_urls := by
        simp [scrapePage, hv, Nat.not_le.mpr hb, hd, hl]
      rw [h1] at hvis
      have := congrArg List.length hvis
      simp at this
    | some lp =>
      have : (scrapePage load st url).2 = some (mkPageData url lp) := by
        simp [scrapePage, hv, Nat.not_le.mpr hb, hd, hl]
      rw [h2] at this
      exact Option.noConfusion this
  · intro h
    rcases h with h | h | h
    · simp [scrapePage, h]
    · by_cases h1 : url ∈ st.visited_urls <;> simp [scrapePage, h1, h]
    · by_cases h1 : url ∈ st.visited_urls
      · simp [scrapePage, h1]
      · by_cases h2 : st.max_pages ≤ st.visited_urls.length <;>
          simp [scrapePage, h1, h2, h]

/-- C4 counterexample to the claim as stated: with start URL
`https://example.com`, the url `https://sub.example.com/a` is refused by the
code although it is unvisited, the budget is free, and its registered domain
(`example.com`) equals the registered domain of the start URL — so the gating
comparison is not registered-domain equality. -/
theorem scrape_refusal_registered_domain_counterexample :
    (scrapePage (fun _ => none) (initState "https://example.com" 10)
        "https://sub.example.com/a" = (initState "https://example.com" 10, none)) ∧
    registeredDomain (urlparseNetloc "https://sub.example.com/a")
      = registeredDomain (urlparseNetloc "https://example.com") ∧
    ("https://sub.example.com/a" ∉ (initState "https://example.com" 10).visited_urls) ∧
    ¬ ((initState "https://example.com" 10).max_pages
        ≤ (initState "https://example.com" 10).visited_urls.length) := by
  refine ⟨?_, ?_, ?_, ?_⟩ <;> decide

/-! ## Splitting lemmas (C2) -/

theorem pySplitAux_skip (sep : List Char) : ∀ (l : List Char) (k : Nat) (acc : List Char),
    pySplitAux sep k acc l = pySplitAux sep 0 acc (l.drop k) := by
  intro l
  induction l with
  | nil => intro k acc; cases k <;> rfl
  | cons c r ih =>
    intro k acc
    cases k with
    | zero => rfl
    | succ k => simpa using ih k acc

theorem pySplitAux_ne_nil (sep : List Char) : ∀ (l : List Char) (k : Nat) (acc : List Char),
    pySplitAux sep k acc l ≠ [] := by
  intro l
  induction l with
  | nil => intro k acc; cases k <;> exact fun h => List.noConfusion h
  | cons c r ih =>
    intro k acc
    cases k with
    | zero =>
      by_cases hp : sep.isPrefixOf (c :: r)
      · simp only [pySplitAux, hp, if_pos]
        exact fun h => List.noConfusion h
      · simpa only [pySplitAux, hp, if_neg] using ih 0 (c :: acc)
    | succ k => simpa only [pySplitAux] using ih k acc

theorem pySplitAux_headD (sep : List Char) : ∀ (l acc : List Char),
    (pySplitAux sep 0 acc l).headD [] = acc.reverse ++ beforeFirstOcc sep l := by
  intro l
  induction l with
  | nil => intro acc; simp [pySplitAux, beforeFirstOcc]
  | cons c r ih =>
    intro acc
    by_cases hp : sep.isPrefixOf (c :: r)
    · simp [pySplitAux, beforeFirstOcc, hp]
    · have h1 : pySplitAux sep 0 acc (c :: r) = pySplitAux sep 0 (c :: acc) r := by
        simp [pySplitAux, hp]
      have h2 : beforeFirstOcc sep (c :: r) = c :: beforeFirstOcc sep r := by
        simp [beforeFirstOcc, hp]
      rw [h1, h2, ih (c :: acc)]
      simp

theorem beforeFirstOcc_of_no_occ (sep : List Char) : ∀ (l : List Char),
    pyIn sep l = false → beforeFirstOcc sep l = l := by
  intro l
  induction l with
  | nil => intro _; rfl
  | cons c r ih =>
    intro h
    simp only [pyIn, Bool.or_eq_false_iff] at h
    simp [beforeFirstOcc, h.1, ih h.2]

theorem pySplitAux_eq (sep : List Char) (hsep : sep ≠ []) : ∀ (l acc : List Char),
    pyIn sep l = true →
    pySplitAux sep 0 acc l =
      (acc.reverse ++ beforeFirstOcc sep l) ::
        pySplitAux sep 0 [] (afterFirstOcc sep l) := by
  intro l
  induction l with
  | nil =>
    intro acc h
    simp only [pyIn] at h
    cases sep with
    | nil => exact absurd rfl hsep
    | cons a s => simp [List.isPrefixOf] at h
  | cons c r ih =>
    intro acc h
    by_cases hp : sep.isPrefixOf (c :: r)
    · obtain ⟨m, hm⟩ : ∃ m, sep.length = m + 1 := by
        cases hl : sep.length with
        | zero => exact absurd (List.length_eq_zero.mp hl) hsep
        | succ m => exact ⟨m, rfl⟩
      simp only [pySplitAux, afterFirstOcc, beforeFirstOcc, hp, if_pos]
      rw [pySplitAux_skip, hm]
      simp
    · have h' : pyIn sep r = true := by
        simp only [pyIn, hp, Bool.false_or] at h
        exact h
      simp only [pySplitAux, afterFirstOcc, beforeFirstOcc, hp, if_neg, ite_false]
      rw [ih (c :: acc) h']
      simp

/-- C2 (amended): when the raw response contains the marker, the persona text
is the segment before the first marker occurrence and the playbook text is
the segment between the first and second occurrences (the whole remainder
only when the marker occurs once) — both stripped and fence-cleaned — because
`str.split` cuts at every occurrence and only the second piece is kept.  The
synthetic round trip on a single-marker response yields exactly
persona="A", playbook="B". -/
theorem parse_response_split :
    (∀ (content company_name home_url : String), pyIn MARKER.data content.data = true →
      parse_response content company_name home_url =
        (clean_yaml (pyStrip ⟨beforeFirstOcc MARKER.data content.data⟩),
         clean_yaml (pyStrip ⟨beforeFirstOcc MARKER.data
            (afterFirstOcc MARKER.data content.data)⟩))) ∧
    (∀ (company_name home_url : String),
      parse_response "A\n---SPLIT---\nB" company_name home_url = ("A", "B")) := by
  constructor
  · intro content n u h
    have hsep : MARKER.data ≠ [] := by decide
    have he := pySplitAux_eq MARKER.data hsep content.data [] h
    have hne := pySplitAux_ne_nil MARKER.data
      (afterFirstOcc MARKER.data content.data) 0 []
    obtain ⟨a2, rest, hr⟩ : ∃ a2 rest,
        pySplitAux MARKER.data 0 [] (afterFirstOcc MARKER.data content.data)
          = a2 :: rest := by
      cases hq : pySplitAux MARKER.data 0 [] (afterFirstOcc MARKER.data content.data) with
      | nil => exact absurd hq hne
      | cons a r => exact ⟨a, r, rfl⟩
    have ha2 : a2 = beforeFirstOcc MARKER.data (afterFirstOcc MARKER.data content.data) := by
      have hh := pySplitAux_headD MARKER.data (afterFirstOcc MARKER.data content.data) []
      rw [hr] at hh
      simpa using hh
    unfold parse_response
    rw [if_pos h]
    simp only [pySplit, he, hr, List.map_cons, List.nil_append, List.reverse_nil]
    subst ha2
    simp [List.getD]
  · intro n u
    rfl

theorem parse_response_split_witness :
    parse_response "x---SPLIT---y---SPLIT---z" "N" "U" =
      (clean_yaml (pyStrip ⟨beforeFirstOcc MARKER.data "x---SPLIT---y---SPLIT---z".data⟩),
       clean_yaml (pyStrip ⟨beforeFirstOcc MARKER.data
          (afterFirstOcc MARKER.data "x---SPLIT---y---SPLIT---z".data)⟩)) :=
  parse_response_split.1 "x---SPLIT---y---SPLIT---z" "N" "U" (by decide)

/-- C2 counterexample to the claim as stated: on a response with two marker
occurrences the code yields playbook "B", not the stripped entire remainder
"B---SPLIT---C" after the first occurrence. -/
theorem parse_response_split_counterexample :
    parse_response "A---SPLIT---B---SPLIT---C" "N" "U" = ("A", "B") ∧
    pyStrip ⟨afterFirstOcc MARKER.data "A---SPLIT---B---SPLIT---C".data⟩
      = "B---SPLIT---C" ∧
    ("B" : String) ≠ "B---SPLIT---C" := by
  exact ⟨rfl, rfl, by decide⟩

/-- C6: during the tab sweep, a clicked tab whose fresh text agrees with some
text of some existing page record on the first 500 characters appends nothing,
and one whose fresh text differs from every existing record on the first 500
characters appends exactly the tab record. -/
theorem tab_dedup (st : ScraperState) (tab_text current_url text title : String)
    (h : pyStrip tab_text ≠ "") :
    ((∃ p ∈ st.pages_data, pyTake 500 p.text = pyTake 500 text) →
      tabStep st (.ok tab_text current_url text title) = st) ∧
    ((∀ p ∈ st.pages_data, pyTake 500 p.text ≠ pyTake 500 text) →
      (tabStep st (.ok tab_text current_url text title)).pages_data
        = st.pages_data ++ [mkTabData tab_text current_url text title]) := by
  constructor
  · rintro ⟨p, hp, he⟩
    have hany : st.pages_data.any (fun p => pyTake 500 p.text == pyTake 500 text) = true :=
      List.any_eq_true.mpr ⟨p, hp, beq_iff_eq.mpr he⟩
    simp [tabStep, h, hany]
  · intro hall
    have hany : st.pages_data.any (fun p => pyTake 500 p.text == pyTake 500 text) = false := by
      simp only [List.any_eq_false]
      intro p hp
      simpa using hall p hp
    simp [tabStep, h, hany]

theorem tab_dedup_witness :
    tabStep stOnePage (.ok "Pricing" "https://a.com/x" "same text" "Home")
      = stOnePage :=
  (tab_dedup stOnePage "Pricing" "https://a.com/x" "same text" "Home"
      (by decide)).1
    ⟨{ url := "https://a.com"
       title := "Home"
       text := "same text"
       clickables := some []
       nav_items := some []
       is_tab := none
       tab_name := none }, by decide, by decide⟩

/-! ## Generic crawl-level invariant preservation -/

theorem crawlState_inv (P : ScraperState → Prop)
    (hscrape : ∀ (load : String → Option LoadedPage) (st : ScraperState) (u : String),
      P st → P (scrapePage load st u).1)
    (htab : ∀ (st : ScraperState) (t : TabStep), P st → P (tabStep st t))
    (env : CrawlEnv) (start_url : String) (mp : Nat)
    (h0 : P (initState start_url mp)) : P (crawlState env start_url mp) := by
  have h1 := hscrape env.load _ start_url h0
  unfold crawlState discoverPages
  split
  · exact h1
  · have h2 := foldl_inv P
      (fun s url => if url ∈ s.visited_urls then s else (scrapePage env.load s url).1)
      (fun s url hs => by
        show P (if url ∈ s.visited_urls then s else (scrapePage env.load s url).1)
        by_cases hm : url ∈ s.visited_urls
        · rw [if_pos hm]; exact hs
        · rw [if_neg hm]; exact hscrape env.load s url hs)
      (expandCandidates (scrapePage env.load (initState start_url mp) start_url).1) _ h1
    cases htabs : env.tabs with
    | none => exact h2
    | some ts => exact foldl_inv P tabStep htab (ts.take 5) _ h2

theorem scrapePage_domInv (load : String → Option LoadedPage) (D : String)
    (st : ScraperState) (u : String) (h : DomInv D st) :
    DomInv D (scrapePage load st u).1 := by
  obtain ⟨hb, hp⟩ := h
  refine ⟨by rw [(scrapePage_consts load st u).2.1]; exact hb, ?_⟩
  rcases scrapePage_cases load st u with ⟨_, hpg⟩ | ⟨_, _, hdom, _, hpg | ⟨lp, _, hpg⟩⟩
  · rw [hpg]; exact hp
  · rw [hpg]; exact hp
  · rw [hpg]
    intro p hmem htab
    rcases List.mem_append.mp hmem with hm | hm
    · exact hp p hm htab
    · have hpe : p = mkPageData u lp := List.mem_singleton.mp hm
      subst hpe
      show urlparseNetloc u = D
      rw [hdom, hb]

theorem tabStep_domInv (D : String) (st : ScraperState) (t : TabStep)
    (h : DomInv D st) : DomInv D (tabStep st t) := by
  obtain ⟨hb, hp⟩ := h
  refine ⟨by rw [(tabStep_consts st t).2.1]; exact hb, ?_⟩
  rcases tabStep_pages st t with hpg | ⟨a, b, c, d, _, hpg⟩
  · rw [hpg]; exact hp
  · rw [hpg]
    intro p hmem htab
    rcases List.mem_append.mp hmem with hm | hm
    · exact hp p hm htab
    · have hpe : p = mkTabData a b c d := List.mem_singleton.mp hm
      subst hpe
      simp [mkTabData] at htab

/-- C3 (amended): after a completed crawl every page record appended by
`_scrape_page` (the non-tab records) has a url on the start URL domain; tab
records carry whatever URL the browser shows after the click, which the code
appends without any domain check and may lie on a different domain. -/
theorem crawl_nonTab_same_domain (env : CrawlEnv) (start_url : String) (mp : Nat) :
    ∀ p ∈ (crawl env start_url mp).pages, p.is_tab = none →
      urlparseNetloc p.url = urlparseNetloc start_url := by
  have h := crawlState_inv (DomInv (urlparseNetloc start_url))
    (fun load st u hs => scrapePage_domInv load _ st u hs)
    (fun st t hs => tabStep_domInv _ st t hs)
    env start_url mp ⟨rfl, by simp [initState]⟩
  exact fun p hp ht => h.2 p hp ht

theorem crawl_nonTab_same_domain_witness :
    urlparseNetloc ((crawl envForeignTab "https://a.com" 5).pages.headD default).url
      = urlparseNetloc "https://a.com" :=
  crawl_nonTab_same_domain envForeignTab "https://a.com" 5 _ (by decide) (by decide)

/-- C3 counterexample to the claim as stated: clicking a tab that navigates
to `https://evil.com/x` appends a tab record whose url is on a different
domain than the start URL. -/
theorem crawl_foreign_tab_counterexample :
    ((crawl envForeignTab "https://a.com" 5).pages.map (fun p => p.url))
      = ["https://a.com", "https://evil.com/x"] ∧
    urlparseNetloc "https://evil.com/x" ≠ urlparseNetloc "https://a.com" := by
  exact ⟨by decide, by decide⟩

theorem scrapePage_shapeInv (load : String → Option LoadedPage) (st : ScraperState)
    (u : String) (hs : ∀ p ∈ st.pages_data, recordShapeOK p) :
    ∀ p ∈ (scrapePage load st u).1.pages_data, recordShapeOK p := by
  rcases scrapePage_cases load st u with ⟨_, hpg⟩ | ⟨_, _, _, _, hpg | ⟨lp, _, hpg⟩⟩ <;>
    rw [hpg]
  · exact hs
  · exact hs
  · intro p hmem
    rcases List.mem_append.mp hmem with hm | hm
    · exact hs p hm
    · rw [List.mem_singleton.mp hm]
      constructor <;> simp [mkPageData]

theorem tabStep_shapeInv (st : ScraperState) (t : TabStep)
    (hs : ∀ p ∈ st.pages_data, recordShapeOK p) :
    ∀ p ∈ (tabStep st t).pages_data, recordShapeOK p := by
  rcases tabStep_pages st t with hpg | ⟨a, b, c, d, _, hpg⟩ <;> rw [hpg]
  · exact hs
  · intro p hmem
    rcases List.mem_append.mp hmem with hm | hm
    · exact hs p hm
    · rw [List.mem_singleton.mp hm]
      constructor <;> simp [mkTabData]

/-- C8 (amended): every record in the returned `CrawlResult` carries `url`,
`title` and `text`; the records produced by `_scrape_page` additionally carry
`clickables` and `nav_items` (with no tab fields), while the records appended
by the tab sweep carry `is_tab = true` and `tab_name` but lack `clickables`
and `nav_items` — the consumers read those keys with defaulted access. -/
theorem crawl_record_shape (env : CrawlEnv) (start_url : String) (mp : Nat) :
    ∀ p ∈ (crawl env start_url mp).pages, recordShapeOK p :=
  crawlState_inv (fun s => ∀ p ∈ s.pages_data, recordShapeOK p)
    scrapePage_shapeInv tabStep_shapeInv env start_url mp (by simp [initState])

theorem crawl_record_shape_witness :
    recordShapeOK ((crawl envTwoTabs "https://a.com" 1).pages.headD default) :=
  crawl_record_shape envTwoTabs "https://a.com" 1 _ (by decide)

/-- C8 counterexample to the claim as stated: a completed crawl whose second
page record is a tab record carrying neither `clickables` nor `nav_items`. -/
theorem crawl_record_shape_counterexample :
    1 < (crawl envTwoTabs "https://a.com" 1).pages.length ∧
    ((crawl envTwoTabs "https://a.com" 1).pages.getD 1 default).is_tab = some true ∧
    ((crawl envTwoTabs "https://a.com" 1).pages.getD 1 default).clickables = none ∧
    ((crawl envTwoTabs "https://a.com" 1).pages.getD 1 default).nav_items = none := by
  refine ⟨?_, ?_, ?_, ?_⟩ <;> decide

/-! ## C10: bound on the number of page records -/

theorem tabStep_pages_len (st : ScraperState) (t : TabStep) :
    (tabStep st t).pages_data.length ≤ st.pages_data.length + 1 := by
  rcases tabStep_pages st t with h | ⟨a, b, c, d, _, h⟩ <;> rw [h] <;> simp

theorem foldl_tabStep_len : ∀ (ts : List TabStep) (s : ScraperState),
    (List.foldl tabStep s ts).pages_data.length ≤ s.pages_data.length + ts.length := by
  intro ts
  induction ts with
  | nil => intro s; simp
  | cons t r ih =>
    intro s
    have h1 := ih (tabStep s t)
    have h2 := tabStep_pages_len s t
    simp only [List.foldl_cons, List.length_cons]
    omega

theorem clickTabs_len (tabs : Option (List TabStep)) (s : ScraperState) :
    (clickTabs tabs s).pages_data.length ≤ s.pages_data.length + 5 := by
  cases tabs with
  | none => simp [clickTabs]
  | some ts =>
    have h1 := foldl_tabStep_len (ts.take 5) s
    have h2 : (ts.take 5).length ≤ 5 := List.length_take_le 5 ts
    simp only [clickTabs]
    omega

theorem scrapePage_pagesInv (load : String → Option LoadedPage) (mp : Nat)
    (st : ScraperState) (u : String) (h : PagesInv mp st) :
    PagesInv mp (scrapePage load st u).1 := by
  refine ⟨?_, scrapePage_budgetInv load mp st u h.2⟩
  have hp := h.1
  rcases scrapePage_cases load st u with ⟨hv, hpg⟩ | ⟨_, _, _, hv, hpg | ⟨lp, _, hpg⟩⟩ <;>
    rw [hv, hpg]
  · exact hp
  · exact le_trans hp (Nat.le_succ _)
  · simp only [List.length_append, List.length_cons, List.length_nil]
    omega

/-- C10: tab records are appended without consulting the visited-set or the
budget, so the number of records can exceed `max_pages` (a concrete crawl
with budget 1 returns 3 records), yet is always at most `max_pages + 5`
because at most 5 tabs are clicked and every other record is budget-gated. -/
theorem crawl_pages_bound :
    (∀ (env : CrawlEnv) (start_url : String) (mp : Nat),
      (crawl env start_url mp).pages.length ≤ mp + 5) ∧
    ((crawl envTwoTabs "https://a.com" 1).pages.length = 3 ∧
      1 < (crawl envTwoTabs "https://a.com" 1).pages.length) := by
  refine ⟨?_, by decide, by decide⟩
  intro env start_url mp
  show (crawlState env start_url mp).pages_data.length ≤ mp + 5
  have h0 : PagesInv mp (initState start_url mp) :=
    ⟨by simp [initState], by simp [initState], rfl⟩
  have h1 := scrapePage_pagesInv env.load mp _ start_url h0
  unfold crawlState discoverPages
  split
  · obtain ⟨hp, hv, hm⟩ := h1
    omega
  · dsimp only
    have h2 := foldl_inv (PagesInv mp)
      (fun s url => if url ∈ s.visited_urls then s else (scrapePage env.load s url).1)
      (fun s url hs => by
        show PagesInv mp (if url ∈ s.visited_urls then s else (scrapePage env.load s url).1)
        by_cases hm : url ∈ s.visited_urls
        · rw [if_pos hm]; exact hs
        · rw [if_neg hm]; exact scrapePage_pagesInv env.load mp s url hs)
      (expandCandidates (scrapePage env.load (initState start_url mp) start_url).1) _ h1
    obtain ⟨hp, hv, hm⟩ := h2
    have h3 := clickTabs_len env.tabs
      (List.foldl (fun s url => if url ∈ s.visited_urls then s else (scrapePage env.load s url).1)
        (scrapePage env.load (initState start_url mp) start_url).1
        (expandCandidates (scrapePage env.load (initState start_url mp) start_url).1))
    omega

/-- C5: the Expand phase slices the candidate list to at most
`max_pages - 1` URLs, and in the concrete scenario — three distinct
same-domain links discoverable on the start page and `max_pages = 2` —
exactly one additional page beyond the start page is scraped and the other
two candidates are never visited. -/
theorem expand_budget :
    (∀ (st : ScraperState), 1 ≤ st.max_pages →
      (expandCandidates st).length ≤ st.max_pages - 1) ∧
    ((crawl envExpand "https://a.com/" 2).pages.map (fun p => p.url)
        = ["https://a.com/", "https://a.com/1"] ∧
      (crawlState envExpand "https://a.com/" 2).visited_urls
        = ["https://a.com/1", "https://a.com/"] ∧
      "https://a.com/2" ∉ (crawlState envExpand "https://a.com/" 2).visited_urls ∧
      "https://a.com/3" ∉ (crawlState envExpand "https://a.com/" 2).visited_urls) := by
  constructor
  · intro st h
    unfold expandCandidates pySliceUpto
    have h1 : (0 : Int) ≤ (st.max_pages : Int) - 1 := by omega
    rw [if_pos h1]
    have h2 : ((st.max_pages : Int) - 1).toNat = st.max_pages - 1 := by omega
    rw [h2]
    exact List.length_take_le _ _
  · refine ⟨by decide, by decide, by decide, by decide⟩

theorem expand_budget_witness :
    (expandCandidates stOnePage).length ≤ stOnePage.max_pages - 1 :=
  expand_budget.1 stOnePage (by decide)

/-! ## C9: fence-clean behaviour -/

theorem tryMatch1_eq_none (l : List Char) (h : tripleTick.isPrefixOf l = false) :
    tryMatch1 l = none := by
  unfold tryMatch1
  split
  · exfalso
    simp [tripleTick, List.isPrefixOf] at h
  · rfl

theorem tryMatch2_eq_none (l : List Char) (h : tripleTick.isPrefixOf l = false) :
    tryMatch2 l = none := by
  unfold tryMatch2
  split
  · exfalso
    simp [tripleTick, List.isPrefixOf] at h
  · rfl

theorem subGoAux_id (tm : List Char → Option Nat)
    (htm : ∀ l, tripleTick.isPrefixOf l = false → tm l = none) :
    ∀ (l : List Char) (atLS : Bool), fenceLineFree atLS l = true →
      subGoAux tm 0 atLS l = l := by
  intro l
  induction l with
  | nil => intro atLS _; rfl
  | cons c r ih =>
    intro atLS hf
    simp only [fenceLineFree, Bool.and_eq_true] at hf
    obtain ⟨h1, h2⟩ := hf
    have htmnone : (if atLS then tm (c :: r) else none) = none := by
      cases atLS with
      | false => rfl
      | true =>
        simp only [if_true]
        apply htm
        simpa using h1
    simp only [subGoAux, htmnone]
    rw [ih (c == '\n') h2]

theorem fenceLineFree_of_no_tick : ∀ (l : List Char) (atLS : Bool),
    '\x60' ∉ l → fenceLineFree atLS l = true := by
  intro l
  induction l with
  | nil => intro _ _; rfl
  | cons c r ih =>
    intro atLS h
    have hc : c ≠ '\x60' := fun he => h (he ▸ List.mem_cons_self c r)
    have hpre : tripleTick.isPrefixOf (c :: r) = false := by
      simp only [tripleTick, List.isPrefixOf, Bool.and_eq_false_iff]
      left
      simpa using fun he => hc he.symm
    simp only [fenceLineFree, hpre, Bool.not_false, Bool.or_true, Bool.true_and]
    exact ih (c == '\n') (fun hm => h (List.mem_cons_of_mem c hm))

theorem pySub_id_of_fenceFree (tm : List Char → Option Nat)
    (htm : ∀ l, tripleTick.isPrefixOf l = false → tm l = none)
    (s : String) (h : fenceLineFree true s.data = true) : pySub tm s = s := by
  unfold pySub
  rw [subGoAux_id tm htm s.data true h]

theorem clean_yaml_of_fenceFree (s : String) (h : fenceLineFree true s.data = true) :
    clean_yaml s = pyStrip s := by
  unfold clean_yaml
  rw [pySub_id_of_fenceFree tryMatch1 tryMatch1_eq_none s h,
      pySub_id_of_fenceFree tryMatch2 tryMatch2_eq_none s h]

/-- C9 (amended): `_clean_yaml` returns a text unchanged whenever no line of
the text begins with a code fence and the text carries no leading or trailing
whitespace.  It is, however, not idempotent in general: stripping can expose
a fence line that the substitution passes did not see (see the
counterexample). -/
theorem clean_yaml_already_clean (s : String)
    (hf : fenceLineFree true s.data = true) (hs : pyStrip s = s) :
    clean_yaml s = s := by
  rw [clean_yaml_of_fenceFree s hf, hs]

theorem clean_yaml_already_clean_witness :
    clean_yaml "name: demo\ndescription: ok" = "name: demo\ndescription: ok" :=
  clean_yaml_already_clean "name: demo\ndescription: ok" (by decide) (by decide)

/-- C9 counterexample to the idempotence half of the claim: two leading blanks
hide the fence opener from both substitution passes, the final strip exposes
it, and a second application then removes it — so applying `_clean_yaml`
twice differs from applying it once. -/
theorem clean_yaml_not_idempotent :
    clean_yaml (clean_yaml "  \x60\x60\x60yml\nfoo") ≠ clean_yaml "  \x60\x60\x60yml\nfoo" ∧
    clean_yaml "  \x60\x60\x60yml\nfoo" = "\x60\x60\x60yml\nfoo" ∧
    clean_yaml (clean_yaml "  \x60\x60\x60yml\nfoo") = "foo" := by
  exact ⟨by decide, by decide, by decide⟩

/-! ## C7: the fallback branch of the splitter -/

theorem toLower_backtick (c : Char) (h : c.toLower = '\x60') : c = '\x60' := by
  have hiff : c.toLower
      = if c.toNat ≥ 65 ∧ c.toNat ≤ 90 then Char.ofNat (c.toNat + 32) else c := rfl
  rw [hiff] at h
  split at h
  · exfalso
    rename_i hc
    have hv : (c.toNat + 32).isValidChar := by
      left; omega
    have hchain := congrArg Char.toNat h
    rw [show Char.ofNat (c.toNat + 32) = Char.ofNatAux (c.toNat + 32) hv from by
      unfold Char.ofNat; rw [dif_pos hv]] at hchain
    have haux : (Char.ofNatAux (c.toNat + 32) hv).toNat = c.toNat + 32 := by
      simp [Char.ofNatAux, Char.toNat, UInt32.toNat]
    have h96 : Char.toNat '\x60' = 96 := rfl
    rw [haux, h96] at hchain
    omega
  · exact h

theorem no_tick_company_id (n : String) (h : '\x60' ∉ n.data) :
    '\x60' ∉ (company_id n).data := by
  unfold company_id
  intro hm
  simp only [List.mem_filter] at hm
  obtain ⟨⟨⟨hmem, _⟩, _⟩, _⟩ := hm
  obtain ⟨c, hc, hce⟩ := List.mem_map.mp hmem
  exact h (toLower_backtick c hce ▸ hc)

theorem no_tick_append {s t : String} (hs : '\x60' ∉ s.data)
    (ht : '\x60' ∉ t.data) : '\x60' ∉ (s ++ t).data := by
  rw [String.data_append]
  intro hm
  rcases List.mem_append.mp hm with h | h
  · exact hs h
  · exact ht h

set_option maxRecDepth 4000 in
theorem no_tick_fallback (n u : String) (hn : '\x60' ∉ n.data)
    (hu : '\x60' ∉ u.data) : '\x60' ∉ (fallback_playbook n u).data := by
  unfold fallback_playbook fallback_body
  refine no_tick_append
    (no_tick_append
      (no_tick_append
        (no_tick_append
          (no_tick_append
            (no_tick_append (no_tick_append (by decide) (no_tick_company_id n hn))
              (by decide))
            hn)
          (by decide))
        hu)
      (by decide))
    (by decide)

/-- C7 (amended): when the raw response contains neither the marker nor the
playbook-preamble pattern, the whole response (stripped and fence-cleaned) is
returned as the persona text, and the playbook text is the hardcoded fallback
template — company name, normalised company id and home URL substituted —
stripped of surrounding whitespace, which removes the trailing template
newline (stated here for fence-free company names and home URLs, where the
fence-clean pass cannot alter the template). -/
theorem parse_response_fallback (content company_name home_url : String)
    (h1 : pyIn MARKER.data content.data = false)
    (h2 : findPreamble content.data = none)
    (hn : '\x60' ∉ company_name.data) (hu : '\x60' ∉ home_url.data) :
    parse_response content company_name home_url =
      (clean_yaml (pyStrip content),
       pyStrip (fallback_playbook company_name home_url)) := by
  have hclean : clean_yaml (fallback_playbook company_name home_url)
      = pyStrip (fallback_playbook company_name home_url) :=
    clean_yaml_of_fenceFree _
      (fenceLineFree_of_no_tick _ true (no_tick_fallback _ _ hn hu))
  simp only [parse_response, h1, h2, hclean, Bool.false_eq_true, if_false]

theorem parse_response_fallback_witness :
    parse_response "hello" "Acme" "https://a.com" =
      (clean_yaml (pyStrip "hello"),
       pyStrip (fallback_playbook "Acme" "https://a.com")) :=
  parse_response_fallback "hello" "Acme" "https://a.com"
    (by decide) (by decide) (by decide) (by decide)

set_option maxRecDepth 100000 in
/-- C7 counterexample to the claim as stated: the returned playbook is not
the substituted template verbatim — it is the template with its trailing
newline stripped (exactly the template body). -/
theorem parse_response_fallback_counterexample :
    (parse_response "hello" "Acme" "https://a.com").2
        ≠ fallback_playbook "Acme" "https://a.com" ∧
    (parse_response "hello" "Acme" "https://a.com").2
        = fallback_body "Acme" "https://a.com" := by
  exact ⟨by decide, by decide⟩
